import Mathlib

/-!
Verification development for the biosimilar-news dashboard
(src/agentic-app/src/app/api/search/route.ts and the page component in the
same file).  The server endpoint and the view-layer filtering are embedded
from the source; the news-gathering pipeline (gatherNews, imported by the
route from a library file that is not part of the staged sources) is
modelled from the design document, section by section.

Conventions of the embedding:
* JavaScript strings are Lean Strings; the JS operations trim, toLowerCase
  and includes are embedded as executable character-list functions so that
  concrete runs reduce inside the kernel.
* Instants (ISO date strings / Date.getTime values) are epoch milliseconds
  as Int.
* JS numbers that the program treats as integers (scores, maxItems) are Int.
* An absent (undefined) field is Option.none; a thrown exception is
  Except.error.
-/

/-- Embedding of the JavaScript String.prototype.trim on the character
list: drop unicode whitespace from both ends. -/
def trimChars (l : List Char) : List Char :=
  ((l.dropWhile Char.isWhitespace).reverse.dropWhile Char.isWhitespace).reverse

/-- Embedding of the JS expression s.trim(). -/
def jsTrim (s : String) : String :=
  (trimChars s.data).asString

/-- Embedding of the JS expression s.toLowerCase() (ASCII case fold, which
is all the program relies on). -/
def lowerStr (s : String) : String :=
  (s.data.map Char.toLower).asString

/-- Embedding of JS String.prototype.includes: the needle occurs as a
contiguous run inside the haystack (the empty needle always occurs). -/
def listInfix (needle : List Char) : List Char → Bool
  | [] => needle.isEmpty
  | c :: t => needle.isPrefixOf (c :: t) || listInfix needle t

/-- A keyword taxonomy row (KeywordSourceRow in lib/types): the keyword
text, optional SOP and business categories, and company aliases. -/
structure KeywordSourceRow where
  keyword : String
  sopCategory : Option String
  businessCategory : Option String
  companies : List String
deriving Repr, DecidableEq

/-- A company watch target: opaque id, display label and seed URL. -/
structure CompanyTarget where
  id : String
  label : String
  url : String
deriving Repr, DecidableEq

/-- The time range of a search: a named preset or an explicit custom
from/to pair of instants (epoch ms). -/
inductive TimeRangeOption where
  | h24
  | d3
  | d7
  | d30
  | custom (fromMs toMs : Int)
deriving Repr, DecidableEq

/-- The body of a POST /api/search request (SearchPayload in lib/types).
maxItems is optional: the route applies the ?? 100 default. -/
structure SearchPayload where
  keywords : List KeywordSourceRow
  companyTargets : List CompanyTarget
  timeRange : TimeRangeOption
  maxItems : Option Int
deriving Repr, DecidableEq

/-- The pipeline's output unit. publishedAt is the parsed instant in epoch
milliseconds. -/
structure ConsolidatedNewsItem where
  id : String
  title : String
  source : String
  url : String
  publishedAt : Int
  summary : String
  authenticScore : Int
  marketImpactScore : Int
  keywordMatches : List String
  companyMatches : List String
  sopCategory : Option String
  businessCategory : Option String
deriving Repr, DecidableEq

/-- One of the two JSON response bodies the route can produce. -/
inductive ResponseBody where
  | results (items : List ConsolidatedNewsItem)
  | error (message : String)
deriving Repr, DecidableEq

/-- An HTTP response: status code plus JSON body. -/
structure HttpResponse where
  status : Nat
  body : ResponseBody
deriving Repr, DecidableEq

/-- route.ts line 11: payload.keywords.filter(kw.keyword.trim().length > 0). -/
def validKeywords (l : List KeywordSourceRow) : List KeywordSourceRow :=
  l.filter (fun kw => decide (0 < (jsTrim kw.keyword).length))

/-- route.ts lines 12-14: payload.companyTargets.filter(target.url.trim().length > 0). -/
def validTargets (l : List CompanyTarget) : List CompanyTarget :=
  l.filter (fun t => decide (0 < (jsTrim t.url).length))

/-- The argument tuple the route hands to gatherNews (route.ts lines 10-17). -/
structure GatherArgs where
  keywords : List KeywordSourceRow
  companyTargets : List CompanyTarget
  timeRange : TimeRangeOption
  maxItems : Int
deriving Repr, DecidableEq

/-- The arguments of the gatherNews call the POST handler makes: none when
the request body fails to parse (request.json() throws), otherwise the
filtered keyword rows, the filtered targets, the time range unchanged and
payload.maxItems ?? 100 (route.ts lines 10-17). -/
def gatherArgs (body : Except String SearchPayload) : Option GatherArgs :=
  match body with
  | Except.error _ => none
  | Except.ok payload =>
    some
      { keywords := validKeywords payload.keywords
        companyTargets := validTargets payload.companyTargets
        timeRange := payload.timeRange
        maxItems := payload.maxItems.getD 100 }

/-- The catch branch of the POST handler (route.ts lines 20-26): status 500
with the fixed generic message. -/
def serverErrorResponse : HttpResponse :=
  { status := 500, body := ResponseBody.error "Unable to gather news results." }

/-- The POST /api/search handler (route.ts lines 7-27).  The pipeline is a
parameter: a function of the four gatherNews arguments that either returns
the result list or throws.  A body parse failure or a pipeline throw both
land in the catch branch; otherwise NextResponse.json with default status
200 wraps the results. -/
def handlePOST
    (gather : List KeywordSourceRow → List CompanyTarget → TimeRangeOption → Int →
      Except String (List ConsolidatedNewsItem))
    (body : Except String SearchPayload) : HttpResponse :=
  match gatherArgs body with
  | none => serverErrorResponse
  | some a =>
    match gather a.keywords a.companyTargets a.timeRange a.maxItems with
    | Except.error _ => serverErrorResponse
    | Except.ok results => { status := 200, body := ResponseBody.results results }

/-- Modelled from the spec: the pipeline's resolved time window (section 3
TimeRange).  The spec names the bounds from/to; Lean reserves the word
from, so the fields are lo/hi. -/
structure TimeWindow where
  lo : Int
  hi : Int
deriving Repr, DecidableEq

/-- One day in milliseconds. -/
def dayMs : Int := 86400000

/-- Modelled from the spec: the window a TimeRange denotes (section 3).
Presets reach back from the current instant; a custom pair is used as
given when ordered, and an inverted pair is clamped to the valid range
with the same endpoints (section 3: the pipeline must reject or clamp an
inverted range rather than silently returning nothing). -/
def resolveWindow (now : Int) (tr : TimeRangeOption) : TimeWindow :=
  match tr with
  | TimeRangeOption.h24 => { lo := now - dayMs, hi := now }
  | TimeRangeOption.d3 => { lo := now - 3 * dayMs, hi := now }
  | TimeRangeOption.d7 => { lo := now - 7 * dayMs, hi := now }
  | TimeRangeOption.d30 => { lo := now - 30 * dayMs, hi := now }
  | TimeRangeOption.custom f t => if f ≤ t then { lo := f, hi := t } else { lo := t, hi := f }

/-- Modelled from the spec: one planned source query with its provenance
back-references (section 4.1). -/
structure SourceQuery where
  text : String
  keywordProv : List KeywordSourceRow
  companyProv : List String
deriving Repr, DecidableEq

/-- Modelled from the spec: the bounded number of AI-expanded phrases kept
per keyword (section 4.1). -/
def expandCap : Nat := 4

/-- Modelled from the spec: the queries one keyword row expands to - the
literal keyword first, then the capped semantic expansions, each carrying
the row as provenance (section 4.1).  An expansion failure is the empty
expansion list, which degrades to the literal keyword alone. -/
def keywordQueries (expand : String → List String) (row : KeywordSourceRow) :
    List SourceQuery :=
  { text := row.keyword, keywordProv := [row], companyProv := [] } ::
    ((expand row.keyword).take expandCap).map
      (fun phrase => { text := phrase, keywordProv := [row], companyProv := [] })

/-- Modelled from the spec: the query a company target contributes, scoped
to its URL and carrying the label as provenance (section 4.1). -/
def targetQuery (t : CompanyTarget) : SourceQuery :=
  { text := t.url, keywordProv := [], companyProv := [t.label] }

/-- Modelled from the spec: the cap on total query count, proportional to
maxItems (section 4.1). -/
def queryCap (maxItems : Int) : Nat := 4 * maxItems.toNat + 8

/-- Modelled from the spec: the Query Planner (section 4.1).  Blank keyword
rows and blank-URL targets are dropped again defensively (section 3
invariant); the produced query list is capped. -/
def planQueries (expand : String → List String) (maxItems : Int)
    (keywords : List KeywordSourceRow) (targets : List CompanyTarget) :
    List SourceQuery :=
  (((keywords.filter (fun kw => decide (0 < (jsTrim kw.keyword).length))).flatMap
      (keywordQueries expand)) ++
    (targets.filter (fun t => decide (0 < (jsTrim t.url).length))).map targetQuery).take
    (queryCap maxItems)

/-- A raw heterogeneous record one source returns for one query (section 3
RawRecord): publishedAt is the best-effort parsed instant, none when the
date could not be parsed. -/
structure RawRecord where
  title : String
  url : String
  publishedAt : Option Int
  sourceName : String
  summary : String
deriving Repr, DecidableEq

/-- Modelled from the spec: URL normalization for ids and merge keys
(section 4.3). -/
def normalizeUrl (url : String) : String := lowerStr (jsTrim url)

/-- Modelled from the spec: the content-derived id used when the URL is
absent (section 4.3). -/
def contentKey (r : RawRecord) : String :=
  r.sourceName ++ "|" ++ lowerStr (jsTrim r.title)

/-- Modelled from the spec: the Normalizer (section 4.3).  A record missing
both a title and a URL is dropped; a record with no parseable date is
dropped; a record whose instant falls outside the requested window is
dropped (the authoritative time filter); otherwise the candidate item is
built with a deterministic id and the provenance of its query. -/
def normalizeRecord (window : TimeWindow) (q : SourceQuery) (r : RawRecord) :
    Option ConsolidatedNewsItem :=
  if 0 < (jsTrim r.title).length ∨ 0 < (jsTrim r.url).length then
    match r.publishedAt with
    | none => none
    | some ts =>
      if window.lo ≤ ts ∧ ts ≤ window.hi then
        some
          { id := if 0 < (jsTrim r.url).length then normalizeUrl r.url else contentKey r
            title := r.title
            source := r.sourceName
            url := r.url
            publishedAt := ts
            summary := r.summary
            authenticScore := 0
            marketImpactScore := 0
            keywordMatches := q.keywordProv.map KeywordSourceRow.keyword
            companyMatches := q.companyProv
            sopCategory := match q.keywordProv with | [row] => row.sopCategory | _ => none
            businessCategory := match q.keywordProv with | [row] => row.businessCategory | _ => none }
      else none
  else none

/-- Modelled from the spec: the near-duplicate title signature - case
folded, punctuation stripped, whitespace collapsed (section 4.4). -/
def titleSignature (title : String) : String :=
  String.intercalate " "
    ((((lowerStr title).data.map (fun c => if c.isAlphanum then c else ' ')).asString.splitOn
        " ").filter (fun s => decide (0 < s.length)))

/-- Modelled from the spec: the coarse time bucket combined with the title
signature (section 4.4): the calendar day of the instant. -/
def dayBucket (ts : Int) : Int := ts / dayMs

/-- Modelled from the spec: the merge key of a candidate (section 4.4) -
the normalized URL when present, else title signature plus day bucket. -/
def mergeKey (i : ConsolidatedNewsItem) : String :=
  if 0 < (jsTrim i.url).length then normalizeUrl i.url
  else titleSignature i.title ++ "#" ++ toString (dayBucket i.publishedAt)

/-- Order-preserving union of provenance lists (section 4.4). -/
def unionStr (a b : List String) : List String :=
  a ++ b.filter (fun x => !(a.contains x))

/-- Modelled from the spec: the summary kept by a merge - the longer
variant, so a non-empty one beats an empty one (section 4.4). -/
def pickSummary (a b : String) : String :=
  if a.length < b.length then b else a

/-- Modelled from the spec: merging a later candidate b into the earlier
candidate a with the same merge key (section 4.4): match sets are unioned,
the longer summary is kept, categories keep the first non-null value in
provenance order, every other field (including publishedAt and id) stays
the earlier candidate's. -/
def mergeItems (a b : ConsolidatedNewsItem) : ConsolidatedNewsItem :=
  { a with
    keywordMatches := unionStr a.keywordMatches b.keywordMatches
    companyMatches := unionStr a.companyMatches b.companyMatches
    summary := pickSummary a.summary b.summary
    sopCategory := match a.sopCategory with
      | some c => some c
      | none => b.sopCategory
    businessCategory := match a.businessCategory with
      | some c => some c
      | none => b.businessCategory }

/-- Modelled from the spec: insert one candidate into the accumulated
deduplicated list, merging into the first entry with the same key
(section 4.4). -/
def dedupInsert (i : ConsolidatedNewsItem) :
    List ConsolidatedNewsItem → List ConsolidatedNewsItem
  | [] => [i]
  | b :: t => if mergeKey b = mergeKey i then mergeItems b i :: t else b :: dedupInsert i t

/-- Modelled from the spec: the Deduplicator (section 4.4), a fold over the
candidates in provenance order. -/
def dedup (l : List ConsolidatedNewsItem) : List ConsolidatedNewsItem :=
  l.foldl (fun acc i => dedupInsert i acc) []

/-- Both scores are clamped to the closed interval 0..100 (section 4.5). -/
def clampScore (n : Int) : Int := min 100 (max 0 n)

/-- Modelled from the spec: source-reputation signal of the authenticity
heuristic (section 4.5): known regulatory or wire names. -/
def reputableSources : List String := ["fda", "ema", "reuters", "businesswire", "sec"]

/-- Modelled from the spec: the authenticity score (section 4.5): a
mid-range base, a source-reputation boost and a capped content-length
signal, clamped to 0..100.  Deterministic in the item. -/
def authenticScoreOf (i : ConsolidatedNewsItem) : Int :=
  clampScore (50 +
    (if reputableSources.any (fun s => listInfix s.data (lowerStr i.source).data) then 25 else 0) +
    min 20 ((i.summary.length : Int) / 40))

/-- Modelled from the spec: textual signals of regulatory or financial
materiality (section 4.5). -/
def materialityTerms : List String := ["approval", "launch", "patent", "earnings"]

/-- Modelled from the spec: the market-impact score (section 4.5): a
mid-range base, the number of company matches (capped), a materiality-term
signal over title and summary, and a business-category weight, clamped to
0..100.  Deterministic in the item. -/
def marketImpactScoreOf (i : ConsolidatedNewsItem) : Int :=
  clampScore (40 + 10 * min 3 (i.companyMatches.length : Int) +
    (if materialityTerms.any
        (fun term => listInfix term.data (lowerStr (i.title ++ " " ++ i.summary)).data)
      then 20 else 0) +
    (if i.businessCategory.isSome then 10 else 0))

/-- Modelled from the spec: the Scorer (section 4.5) fills in the two
scores of a deduplicated item and changes nothing else. -/
def scoreItem (i : ConsolidatedNewsItem) : ConsolidatedNewsItem :=
  { i with
    authenticScore := authenticScoreOf i
    marketImpactScore := marketImpactScoreOf i }

/-- Modelled from the spec: the Aggregator's order (section 4.6):
publishedAt descending, ties by marketImpactScore descending, then id
ascending. -/
def itemBefore (a b : ConsolidatedNewsItem) : Bool :=
  if a.publishedAt = b.publishedAt then
    if a.marketImpactScore = b.marketImpactScore then a.id < b.id || a.id == b.id
    else b.marketImpactScore < a.marketImpactScore
  else b.publishedAt < a.publishedAt

/-- Insertion into a ranked list: a goes before the first entry it ranks
no later than. -/
def insertRanked {α : Type} (le : α → α → Bool) (a : α) : List α → List α
  | [] => [a]
  | b :: t => if le a b then a :: b :: t else b :: insertRanked le a t

/-- Insertion sort by a ranking predicate. -/
def sortByRank {α : Type} (le : α → α → Bool) : List α → List α
  | [] => []
  | a :: t => insertRanked le a (sortByRank le t)

/-- Modelled from the spec: the Aggregator (section 4.6): sort, then
truncate to the first maxItems entries; a negative maxItems is treated as
zero (Int.toNat sends every non-positive count to 0). -/
def aggregate (maxItems : Int) (items : List ConsolidatedNewsItem) :
    List ConsolidatedNewsItem :=
  (sortByRank itemBefore items).take maxItems.toNat

/-- Modelled from the spec: the candidates of a run - every planned query
is fetched against the resolved window and each raw record is normalized
with the query's provenance (sections 4.2 and 4.3).  The fetcher is a
parameter: a failed or timed-out fetch is the fetcher returning the empty
list for that query. -/
def pipelineCandidates (fetch : SourceQuery → TimeWindow → List RawRecord)
    (window : TimeWindow) (queries : List SourceQuery) : List ConsolidatedNewsItem :=
  queries.flatMap (fun q => (fetch q window).filterMap (normalizeRecord window q))

/-- Modelled from the spec: gatherNews, the whole pipeline (section 2
control flow), with the AI expansion service and the source fetchers as
parameters and the current instant made explicit.  This function is the
library import of route.ts line 2, which is not among the staged sources. -/
def gatherNews (expand : String → List String)
    (fetch : SourceQuery → TimeWindow → List RawRecord) (now : Int)
    (keywords : List KeywordSourceRow) (targets : List CompanyTarget)
    (timeRange : TimeRangeOption) (maxItems : Int) : List ConsolidatedNewsItem :=
  aggregate maxItems
    ((dedup (pipelineCandidates fetch (resolveWindow now timeRange)
        (planQueries expand maxItems keywords targets))).map scoreItem)

/-- The recency filter options of the Intelligence Feed (page component,
FiltersState.timeWindow). -/
inductive TimeWindowFilter where
  | all
  | h24
  | d3
  | d7
deriving Repr, DecidableEq

/-- The view-layer filter state (page component, type FiltersState). -/
structure FiltersState where
  keyword : String
  company : String
  searchTerm : String
  minAuthentic : Int
  minImpact : Int
  timeWindow : TimeWindowFilter
deriving Repr, DecidableEq

/-- The default filter state EMPTY_FILTERS of the page component. -/
def EMPTY_FILTERS : FiltersState :=
  { keyword := "all"
    company := "all"
    searchTerm := ""
    minAuthentic := 0
    minImpact := 0
    timeWindow := TimeWindowFilter.all }

/-- The millisecond cutoff of each recency option (page component, the
limit expression inside filteredResults): none for the option named all. -/
def windowLimitMs : TimeWindowFilter → Option Int
  | TimeWindowFilter.all => none
  | TimeWindowFilter.h24 => some (24 * 60 * 60 * 1000)
  | TimeWindowFilter.d3 => some (3 * 24 * 60 * 60 * 1000)
  | TimeWindowFilter.d7 => some (7 * 24 * 60 * 60 * 1000)

/-- The predicate of the filteredResults useMemo of the page component, one
item at a time.  Each early return false of the source is one conjunct:
keyword focus, company focus, free-text search over title, summary and
source, the two minimum-score thresholds, and the recency window measured
against the current instant (Date.now(), the explicit now argument). -/
def passesFilters (now : Int) (filters : FiltersState) (item : ConsolidatedNewsItem) : Bool :=
  (filters.keyword == "all" || item.keywordMatches.contains filters.keyword) &&
  (filters.company == "all" || item.companyMatches.contains filters.company) &&
  ((jsTrim filters.searchTerm).length == 0 ||
    listInfix (lowerStr (jsTrim filters.searchTerm)).data
      (lowerStr (item.title ++ " " ++ item.summary ++ " " ++ item.source)).data) &&
  decide (filters.minAuthentic ≤ item.authenticScore) &&
  decide (filters.minImpact ≤ item.marketImpactScore) &&
  (match windowLimitMs filters.timeWindow with
   | none => true
   | some limit => decide (now - item.publishedAt ≤ limit))

/-- The filteredResults list of the page component: the result list
filtered by the active filter state. -/
def filteredResults (now : Int) (filters : FiltersState)
    (results : List ConsolidatedNewsItem) : List ConsolidatedNewsItem :=
  results.filter (passesFilters now filters)

/-- The rows of the newsletter preview table: filteredResults.slice(0, 12)
(page component, line 855). -/
def newsletterRows (now : Int) (filters : FiltersState)
    (results : List ConsolidatedNewsItem) : List ConsolidatedNewsItem :=
  (filteredResults now filters results).take 12

/-- A concrete keyword row used for concrete runs. -/
def sampleRow : KeywordSourceRow :=
  { keyword := "biosimilar", sopCategory := none, businessCategory := none, companies := [] }

/-- A concrete raw record published at instant 500. -/
def sampleRecord : RawRecord :=
  { title := "Adalimumab biosimilar approval"
    url := "https://example.com/a"
    publishedAt := some 500
    sourceName := "Reuters"
    summary := "FDA grants approval" }

/-- A concrete expansion collaborator that returns no expansions. -/
def sampleExpand : String → List String := fun _ => []

/-- A concrete fetcher returning one record for every query. -/
def sampleFetch : SourceQuery → TimeWindow → List RawRecord := fun _ _ => [sampleRecord]

/-- The candidate the Normalizer builds from sampleRecord. -/
def sampleNormalized : ConsolidatedNewsItem :=
  { id := "https://example.com/a", title := "Adalimumab biosimilar approval",
    source := "Reuters", url := "https://example.com/a", publishedAt := 500,
    summary := "FDA grants approval", authenticScore := 0, marketImpactScore := 0,
    keywordMatches := ["biosimilar"], companyMatches := [], sopCategory := none,
    businessCategory := none }

/-- The scored pipeline output of the concrete run. -/
def sampleOut : ConsolidatedNewsItem := scoreItem sampleNormalized

/-- A concrete already-scored result item for view-layer runs. -/
def sampleItem : ConsolidatedNewsItem :=
  { id := "https://example.com/b", title := "Biosimilar launch update",
    source := "Reuters", url := "https://example.com/b", publishedAt := 500,
    summary := "Launch news", authenticScore := 80, marketImpactScore := 70,
    keywordMatches := ["biosimilar"], companyMatches := ["Amgen"],
    sopCategory := none, businessCategory := none }

/-- A filter state that only raises the two score thresholds above the
defaults. -/
def strictFilters : FiltersState :=
  { keyword := "all", company := "all", searchTerm := "", minAuthentic := 50,
    minImpact := 40, timeWindow := TimeWindowFilter.all }

/-- A request body whose maxItems field is present and zero. -/
def payloadZeroMax : SearchPayload :=
  { keywords := [sampleRow], companyTargets := [], timeRange := TimeRangeOption.d7,
    maxItems := some 0 }

/-- A request body with an empty keyword list and an empty company-target
list. -/
def payloadEmptyLists : SearchPayload :=
  { keywords := [], companyTargets := [], timeRange := TimeRangeOption.d7,
    maxItems := some 5 }

/-- Inserting into a ranked list adds exactly the inserted element to the
membership. -/
theorem mem_insertRanked {α : Type} (le : α → α → Bool) (a x : α) (l : List α) :
    x ∈ insertRanked le a l ↔ x = a ∨ x ∈ l := by
  induction l with
  | nil => simp [insertRanked]
  | cons b t ih =>
    rw [insertRanked]
    split
    · simp [List.mem_cons]
    · simp only [List.mem_cons, ih]
      tauto

/-- The ranked sort is a permutation as far as membership goes. -/
theorem mem_sortByRank {α : Type} (le : α → α → Bool) (x : α) (l : List α) :
    x ∈ sortByRank le l ↔ x ∈ l := by
  induction l with
  | nil => simp [sortByRank]
  | cons a t ih =>
    rw [sortByRank, mem_insertRanked]
    simp [List.mem_cons, ih]

/-- Merging never changes the instant of the earlier candidate. -/
theorem mergeItems_publishedAt (a b : ConsolidatedNewsItem) :
    (mergeItems a b).publishedAt = a.publishedAt := rfl

/-- Every entry of the list after a dedup insertion carries the instant of
the inserted candidate or of one already accumulated. -/
theorem dedupInsert_publishedAt (i x : ConsolidatedNewsItem) :
    ∀ acc : List ConsolidatedNewsItem, x ∈ dedupInsert i acc →
      x.publishedAt = i.publishedAt ∨ ∃ y ∈ acc, x.publishedAt = y.publishedAt := by
  intro acc
  induction acc with
  | nil =>
    intro hx
    rw [dedupInsert] at hx
    simp only [List.mem_singleton] at hx
    exact Or.inl (by rw [hx])
  | cons b t ih =>
    intro hx
    rw [dedupInsert] at hx
    split at hx
    · rcases List.mem_cons.mp hx with h | h
      · exact Or.inr ⟨b, List.mem_cons_self b t, by rw [h, mergeItems_publishedAt]⟩
      · exact Or.inr ⟨x, List.mem_cons_of_mem b h, rfl⟩
    · rcases List.mem_cons.mp hx with h | h
      · exact Or.inr ⟨b, List.mem_cons_self b t, by rw [h]⟩
      · rcases ih h with h1 | ⟨y, hy, he⟩
        · exact Or.inl h1
        · exact Or.inr ⟨y, List.mem_cons_of_mem b hy, he⟩

/-- Every entry of the dedup fold carries the instant of an accumulated
entry or of a remaining candidate. -/
theorem dedup_foldl_publishedAt (x : ConsolidatedNewsItem) :
    ∀ (l acc : List ConsolidatedNewsItem),
      x ∈ l.foldl (fun acc i => dedupInsert i acc) acc →
      (∃ y ∈ acc, x.publishedAt = y.publishedAt) ∨
        ∃ y ∈ l, x.publishedAt = y.publishedAt := by
  intro l
  induction l with
  | nil =>
    intro acc hx
    exact Or.inl ⟨x, hx, rfl⟩
  | cons i t ih =>
    intro acc hx
    simp only [List.foldl_cons] at hx
    rcases ih (dedupInsert i acc) hx with ⟨y, hy, he⟩ | ⟨y, hy, he⟩
    · rcases dedupInsert_publishedAt i y acc hy with h1 | ⟨z, hz, hze⟩
      · exact Or.inr ⟨i, List.mem_cons_self i t, he.trans h1⟩
      · exact Or.inl ⟨z, hz, he.trans hze⟩
    · exact Or.inr ⟨y, List.mem_cons_of_mem i hy, he⟩

/-- Every deduplicated item carries the instant of one of the candidates. -/
theorem dedup_publishedAt (x : ConsolidatedNewsItem) (l : List ConsolidatedNewsItem)
    (hx : x ∈ dedup l) : ∃ y ∈ l, x.publishedAt = y.publishedAt := by
  rcases dedup_foldl_publishedAt x l [] hx with ⟨y, hy, _⟩ | h
  · exact absurd hy (List.not_mem_nil y)
  · exact h

/-- A candidate the Normalizer emits has its instant inside the window. -/
theorem normalizeRecord_publishedAt (w : TimeWindow) (q : SourceQuery) (r : RawRecord)
    (i : ConsolidatedNewsItem) (h : normalizeRecord w q r = some i) :
    w.lo ≤ i.publishedAt ∧ i.publishedAt ≤ w.hi := by
  rw [normalizeRecord] at h
  by_cases hk : 0 < (jsTrim r.title).length ∨ 0 < (jsTrim r.url).length
  · rw [if_pos hk] at h
    rcases hr : r.publishedAt with _ | ts
    all_goals rw [hr] at h
    · exact absurd h (by simp)
    · dsimp only at h
      by_cases hw : w.lo ≤ ts ∧ ts ≤ w.hi
      · rw [if_pos hw] at h
        rw [← Option.some.inj h]
        exact hw
      · rw [if_neg hw] at h
        exact absurd h (by simp)
  · rw [if_neg hk] at h
    exact absurd h (by simp)

/-- Claim C1 counterexample: a received body whose maxItems field is
present and zero.  The route applies the JS nullish coalescing operator
(payload.maxItems ?? 100), which only replaces an absent field, so the
pipeline is invoked with maxItems 0, not 100. -/
theorem c1_counterexample :
    (gatherArgs (Except.ok payloadZeroMax)).map GatherArgs.maxItems = some 0 ∧
      (0 : Int) ≠ 100 := by
  constructor
  · rfl
  · decide

/-- Claim C1 (amended): when the maxItems field is absent the pipeline is
invoked with maxItems 100; when the field is present - zero included - the
pipeline is invoked with exactly the given value. -/
theorem c1_maxItems_default (p : SearchPayload) :
    (p.maxItems = none →
      (gatherArgs (Except.ok p)).map GatherArgs.maxItems = some 100) ∧
    (∀ v : Int, p.maxItems = some v →
      (gatherArgs (Except.ok p)).map GatherArgs.maxItems = some v) := by
  constructor
  · intro h
    simp [gatherArgs, h]
  · intro v h
    simp [gatherArgs, h]

/-- Claim C2: every response of the POST handler is either status 200 with
a results body, or status 500 whose error body is the fixed generic string
"Unable to gather news results." - in particular the 500 body never
depends on the exception, so no stack or exception detail can reach the
caller. -/
theorem c2_response_shape
    (gather : List KeywordSourceRow → List CompanyTarget → TimeRangeOption → Int →
      Except String (List ConsolidatedNewsItem))
    (body : Except String SearchPayload) :
    (∃ rs, handlePOST gather body = { status := 200, body := ResponseBody.results rs }) ∨
      handlePOST gather body =
        { status := 500, body := ResponseBody.error "Unable to gather news results." } := by
  rcases body with e | p
  · exact Or.inr rfl
  · rcases hg : gather (validKeywords p.keywords) (validTargets p.companyTargets)
        p.timeRange (p.maxItems.getD 100) with e | rs
    · refine Or.inr ?_
      simp [handlePOST, gatherArgs, hg, serverErrorResponse]
    · exact Or.inl ⟨rs, by simp [handlePOST, gatherArgs, hg]⟩

/-- Claim C3: the pipeline is invoked, and the keyword list it receives
holds exactly the rows of the body whose keyword text is non-blank after
trimming, and the target list exactly the targets whose URL is non-blank
after trimming - blank entries are removed and nothing else is. -/
theorem c3_blank_filtering (p : SearchPayload) :
    ∃ a : GatherArgs, gatherArgs (Except.ok p) = some a ∧
      (∀ kw : KeywordSourceRow,
        kw ∈ a.keywords ↔ kw ∈ p.keywords ∧ 0 < (jsTrim kw.keyword).length) ∧
      (∀ t : CompanyTarget,
        t ∈ a.companyTargets ↔ t ∈ p.companyTargets ∧ 0 < (jsTrim t.url).length) := by
  refine ⟨_, rfl, ?_, ?_⟩
  · intro kw
    simp [validKeywords, List.mem_filter]
  · intro t
    simp [validTargets, List.mem_filter]

/-- Claim C4 counterexample: a parsed request with an empty keyword list
and an empty company-target list.  The handler performs no validation: it
invokes the pipeline with the empty lists, and with a pipeline that
returns an empty result the response is 200 with results - not a
client-visible validation error. -/
theorem c4_counterexample :
    gatherArgs (Except.ok payloadEmptyLists) =
      some { keywords := [], companyTargets := [], timeRange := TimeRangeOption.d7,
             maxItems := 5 } ∧
    handlePOST (fun _ _ _ _ => Except.ok []) (Except.ok payloadEmptyLists) =
      { status := 200, body := ResponseBody.results [] } :=
  ⟨rfl, rfl⟩

/-- Claim C4 (amended): the handler performs no request validation.  Every
successfully parsed body - empty keyword list, empty company-target list
and inverted time range included - leads to a pipeline invocation, and the
response is determined solely by the pipeline's outcome: its result list
with status 200, or the generic 500 when it throws. -/
theorem c4_no_validation (p : SearchPayload)
    (gather : List KeywordSourceRow → List CompanyTarget → TimeRangeOption → Int →
      Except String (List ConsolidatedNewsItem)) :
    (gatherArgs (Except.ok p)).isSome = true ∧
    ((∃ rs, gather (validKeywords p.keywords) (validTargets p.companyTargets)
          p.timeRange (p.maxItems.getD 100) = Except.ok rs ∧
        handlePOST gather (Except.ok p) =
          { status := 200, body := ResponseBody.results rs }) ∨
      (∃ msg, gather (validKeywords p.keywords) (validTargets p.companyTargets)
          p.timeRange (p.maxItems.getD 100) = Except.error msg ∧
        handlePOST gather (Except.ok p) = serverErrorResponse)) := by
  refine ⟨rfl, ?_⟩
  rcases hg : gather (validKeywords p.keywords) (validTargets p.companyTargets)
      p.timeRange (p.maxItems.getD 100) with msg | rs
  · exact Or.inr ⟨msg, rfl, by simp [handlePOST, gatherArgs, hg]⟩
  · exact Or.inl ⟨rs, rfl, by simp [handlePOST, gatherArgs, hg]⟩

/-- Claim C5: the pipeline's output never exceeds maxItems entries (a
non-positive maxItems gives the truncation count zero), and for every
maxItems at most 0 the output is the empty list. -/
theorem c5_output_bounded (expand : String → List String)
    (fetch : SourceQuery → TimeWindow → List RawRecord) (now : Int)
    (keywords : List KeywordSourceRow) (targets : List CompanyTarget)
    (tr : TimeRangeOption) (maxItems : Int) :
    (gatherNews expand fetch now keywords targets tr maxItems).length ≤ maxItems.toNat ∧
    (maxItems ≤ 0 → gatherNews expand fetch now keywords targets tr maxItems = []) := by
  constructor
  · rw [gatherNews, aggregate]
    exact List.length_take_le _ _
  · intro h
    rw [gatherNews, aggregate, Int.toNat_eq_zero.mpr h]
    rfl

/-- Claim C6: an inverted custom range is clamped, never silently emptied:
the window the pipeline resolves for it is always valid (lower bound at
most upper bound), and the whole run behaves exactly as for the ordered
range with the same two endpoints. -/
theorem c6_inverted_range_clamped (expand : String → List String)
    (fetch : SourceQuery → TimeWindow → List RawRecord) (now : Int)
    (keywords : List KeywordSourceRow) (targets : List CompanyTarget)
    (f t maxItems : Int) :
    (resolveWindow now (TimeRangeOption.custom f t)).lo ≤
        (resolveWindow now (TimeRangeOption.custom f t)).hi ∧
      gatherNews expand fetch now keywords targets (TimeRangeOption.custom f t) maxItems =
        gatherNews expand fetch now keywords targets
          (TimeRangeOption.custom (min f t) (max f t)) maxItems := by
  have hw : resolveWindow now (TimeRangeOption.custom f t) =
      resolveWindow now (TimeRangeOption.custom (min f t) (max f t)) := by
    by_cases h : f ≤ t
    · simp [resolveWindow, h, min_le_max, min_eq_left h, max_eq_right h]
    · have h2 : t ≤ f := le_of_not_le h
      simp [resolveWindow, h, h2, min_eq_right h2, max_eq_left h2]
  constructor
  · rw [hw]
    simp [resolveWindow, min_le_max]
  · rw [gatherNews, gatherNews, hw]

/-- Claim C7: every item of the pipeline's output has its publishedAt
instant inside the window resolved from the requested time range. -/
theorem c7_time_filter (expand : String → List String)
    (fetch : SourceQuery → TimeWindow → List RawRecord) (now : Int)
    (keywords : List KeywordSourceRow) (targets : List CompanyTarget)
    (tr : TimeRangeOption) (maxItems : Int) (x : ConsolidatedNewsItem)
    (hx : x ∈ gatherNews expand fetch now keywords targets tr maxItems) :
    (resolveWindow now tr).lo ≤ x.publishedAt ∧
      x.publishedAt ≤ (resolveWindow now tr).hi := by
  rw [gatherNews, aggregate] at hx
  have hx1 := List.mem_of_mem_take hx
  rw [mem_sortByRank] at hx1
  rcases List.mem_map.mp hx1 with ⟨d, hd, rfl⟩
  rcases dedup_publishedAt d _ hd with ⟨y, hy, he⟩
  rw [pipelineCandidates] at hy
  rcases List.mem_flatMap.mp hy with ⟨q, hq, hyq⟩
  rcases List.mem_filterMap.mp hyq with ⟨r, hr, hnorm⟩
  have hb := normalizeRecord_publishedAt _ q r y hnorm
  have hs : (scoreItem d).publishedAt = d.publishedAt := rfl
  rw [hs, he]
  exact hb

/-- Claim C7 witness: a concrete run over one keyword row and one fetched
record published at instant 500 inside the requested window 0..1000. -/
theorem c7_witness :
    (resolveWindow 1000 (TimeRangeOption.custom 0 1000)).lo ≤ sampleOut.publishedAt ∧
      sampleOut.publishedAt ≤ (resolveWindow 1000 (TimeRangeOption.custom 0 1000)).hi :=
  c7_time_filter sampleExpand sampleFetch 1000 [sampleRow] []
    (TimeRangeOption.custom 0 1000) 5 sampleOut (by decide)

/-- Claim C8: the view filter is monotone in the two score thresholds: a
state that only raises minAuthentic and minImpact keeps a subset of the
items, element by element. -/
theorem c8_filter_monotone (now : Int) (results : List ConsolidatedNewsItem)
    (f g : FiltersState) (hk : g.keyword = f.keyword) (hc : g.company = f.company)
    (hs : g.searchTerm = f.searchTerm) (ht : g.timeWindow = f.timeWindow)
    (ha : f.minAuthentic ≤ g.minAuthentic) (hi : f.minImpact ≤ g.minImpact)
    (x : ConsolidatedNewsItem) (hx : x ∈ filteredResults now g results) :
    x ∈ filteredResults now f results := by
  rw [filteredResults, List.mem_filter] at hx ⊢
  refine ⟨hx.1, ?_⟩
  have hp := hx.2
  rw [passesFilters, hk, hc, hs, ht] at hp
  rw [passesFilters]
  simp only [Bool.and_eq_true] at hp ⊢
  obtain ⟨⟨⟨⟨⟨h1, h2⟩, h3⟩, h4⟩, h5⟩, h6⟩ := hp
  exact ⟨⟨⟨⟨⟨h1, h2⟩, h3⟩, decide_eq_true (le_trans ha (of_decide_eq_true h4))⟩,
    decide_eq_true (le_trans hi (of_decide_eq_true h5))⟩, h6⟩

/-- Claim C8 witness: an item passing the stricter thresholds 50/40 also
passes the default thresholds 0/0 on a concrete list. -/
theorem c8_witness : sampleItem ∈ filteredResults 1000 EMPTY_FILTERS [sampleItem] :=
  c8_filter_monotone 1000 [sampleItem] EMPTY_FILTERS strictFilters rfl rfl rfl rfl
    (by decide) (by decide) sampleItem (by decide)

/-- Claim C9: the default empty filter state changes nothing: on a result
list whose items all carry nonnegative scores it returns the list itself,
order included. -/
theorem c9_empty_filters_identity (now : Int) (results : List ConsolidatedNewsItem)
    (h : ∀ x ∈ results, 0 ≤ x.authenticScore ∧ 0 ≤ x.marketImpactScore) :
    filteredResults now EMPTY_FILTERS results = results := by
  rw [filteredResults]
  refine List.filter_eq_self.mpr ?_
  intro x hx
  rw [passesFilters]
  rw [show decide (EMPTY_FILTERS.minAuthentic ≤ x.authenticScore) = true from
      decide_eq_true (h x hx).1,
    show decide (EMPTY_FILTERS.minImpact ≤ x.marketImpactScore) = true from
      decide_eq_true (h x hx).2]
  rfl

/-- Claim C9 witness: the empty filter state applied to a concrete
one-item list with nonnegative scores. -/
theorem c9_witness : filteredResults 1000 EMPTY_FILTERS [sampleItem] = [sampleItem] :=
  c9_empty_filters_identity 1000 [sampleItem] (by decide)

/-- Claim C10: the newsletter preview table renders at most 12 rows, and
those rows are exactly an initial segment of the filtered result list in
its order - appending the rest of the filtered list after index 12
recovers the filtered list. -/
theorem c10_newsletter_preview (now : Int) (filters : FiltersState)
    (results : List ConsolidatedNewsItem) :
    (newsletterRows now filters results).length ≤ 12 ∧
      newsletterRows now filters results ++ (filteredResults now filters results).drop 12 =
        filteredResults now filters results := by
  constructor
  · rw [newsletterRows]
    exact List.length_take_le _ _
  · rw [newsletterRows]
    exact List.take_append_drop 12 _
